import Mathlib

/-!
Verification development for the Bankify core (`src/bank_management.py`).

The core consists of two Python classes:

* `Account` — fields `account_number`, `name`, `account_type`, `balance`,
  with methods `deposit`, `withdraw`, `get_balance`.
* `Bank` — field `name` and a dict `accounts` mapping account numbers to
  `Account` objects, with methods `create_account`,
  `_generate_account_number`, `find_account`, `close_account`,
  `list_all_accounts`.

Monetary values (Python floats in the source) are modelled exactly as
rationals (`Rat`); the Python dict is modelled as an association list with
Python-dict semantics (update in place keeps the entry's position, a fresh
key is appended at the end, `del` removes the entry).  `random.randint` in
`_generate_account_number` is modelled as an oracle stream `s : Nat → Nat`
of sampled values; the `while True` retry loop returns the first sampled
value that is not a current key.

`Account.withdraw` in the source returns a single `bool`, but its three
branches print three distinct messages (success, "Insufficient funds",
"Invalid withdrawal amount").  The embedding returns the branch taken as a
`WithdrawOutcome`, and `WithdrawOutcome.toBool` is exactly the source's
boolean return value.
-/

/-- One bank account: `Account.__init__` stores the four fields verbatim. -/
structure Account where
  account_number : Nat
  name : String
  account_type : String
  balance : Rat
deriving DecidableEq, Repr

/-- Source `Account.deposit(amount)`: if `amount > 0` add it to the balance and
return `True`, otherwise leave the balance unchanged and return `False`. -/
def Account.deposit (acc : Account) (amount : Rat) : Account × Bool :=
  if 0 < amount then
    ({ acc with balance := acc.balance + amount }, true)
  else
    (acc, false)

/-- The branch `Account.withdraw` takes, distinguished in the source by the
three distinct messages it prints. -/
inductive WithdrawOutcome where
  | success
  | insufficientFunds
  | invalidAmount
deriving DecidableEq, Repr

/-- The source's boolean return value of `Account.withdraw`: `True` on the
success branch, `False` on both failure branches. -/
def WithdrawOutcome.toBool : WithdrawOutcome → Bool
  | .success => true
  | .insufficientFunds => false
  | .invalidAmount => false

/-- Source `Account.withdraw(amount)`: `if 0 < amount <= self.balance` subtract and
succeed; `elif amount > self.balance` fail (insufficient funds); `else` fail
(invalid amount).  The balance is only mutated on the first branch. -/
def Account.withdraw (acc : Account) (amount : Rat) : Account × WithdrawOutcome :=
  if 0 < amount ∧ amount ≤ acc.balance then
    ({ acc with balance := acc.balance - amount }, .success)
  else if acc.balance < amount then
    (acc, .insufficientFunds)
  else
    (acc, .invalidAmount)

/-- Source `Account.get_balance()`: returns the current balance. -/
def Account.get_balance (acc : Account) : Rat :=
  acc.balance

/-- Python `dict` lookup `d.get(k)` on the association-list model. -/
def dictGet : List (Nat × Account) → Nat → Option Account
  | [], _ => none
  | p :: rest, k => if p.1 = k then some p.2 else dictGet rest k

/-- Python `k in d` membership test. -/
def dictContains (d : List (Nat × Account)) (k : Nat) : Bool :=
  (dictGet d k).isSome

/-- Python `d[k] = v`: replace in place if the key is present (keeping its
position), otherwise append the new entry at the end. -/
def dictSet : List (Nat × Account) → Nat → Account → List (Nat × Account)
  | [], k, v => [(k, v)]
  | p :: rest, k, v => if p.1 = k then (k, v) :: rest else p :: dictSet rest k v

/-- Python `del d[k]`: remove the entry with key `k`. -/
def dictDel : List (Nat × Account) → Nat → List (Nat × Account)
  | [], _ => []
  | p :: rest, k => if p.1 = k then dictDel rest k else p :: dictDel rest k

/-- In-place mutation of the `Account` object stored under key `k` (the
Python pattern `acc = bank.find_account(n); acc.deposit(a)` mutates the
object the dict holds under `n`). -/
def dictUpdate : List (Nat × Account) → Nat → (Account → Account) → List (Nat × Account)
  | [], _, _ => []
  | p :: rest, k, f =>
    if p.1 = k then (p.1, f p.2) :: dictUpdate rest k f
    else p :: dictUpdate rest k f

/-- The `Bank`: its display name and the `accounts` dict. -/
structure Bank where
  name : String
  accounts : List (Nat × Account)
deriving DecidableEq, Repr

/-- Source `Bank.__init__`: a bank starts with an empty `accounts` dict. -/
def Bank.init (nm : String) : Bank :=
  ⟨nm, []⟩

/-- The oracle stream `s` of sampled values eventually yields a value that
is not a current key — the premise under which the source's retry loop
returns. -/
def GenOk (d : List (Nat × Account)) (s : Nat → Nat) : Prop :=
  ∃ i, dictContains d (s i) = false

instance (d : List (Nat × Account)) (s : Nat → Nat) :
    DecidablePred (fun i => dictContains d (s i) = false) := fun _ =>
  inferInstance

/-- Source `Bank._generate_account_number`: keep sampling until the sampled value
is not a current key, and return that first free sample. -/
def generate_account_number (d : List (Nat × Account)) (s : Nat → Nat)
    (h : GenOk d s) : Nat :=
  s (Nat.find h)

/-- Source `Bank.create_account(name, account_type, initial_deposit)`: a negative
initial deposit is rejected (`None`, no mutation); otherwise a fresh account
number is generated, a new `Account` is constructed with the given fields,
inserted into the dict, and returned. -/
def Bank.create_account (b : Bank) (nm ty : String) (initial_deposit : Rat)
    (s : Nat → Nat) (h : GenOk b.accounts s) : Bank × Option Account :=
  if initial_deposit < 0 then
    (b, none)
  else
    let n := generate_account_number b.accounts s h
    let acc : Account := ⟨n, nm, ty, initial_deposit⟩
    (⟨b.name, dictSet b.accounts n acc⟩, some acc)

/-- Source `Bank.find_account(account_number)`: `self.accounts.get(account_number)`. -/
def Bank.find_account (b : Bank) (n : Nat) : Option Account :=
  dictGet b.accounts n

/-- Source `Bank.close_account(account_number)`: if present, delete the entry and
return `True`; otherwise return `False` with the bank unchanged. -/
def Bank.close_account (b : Bank) (n : Nat) : Bank × Bool :=
  if dictContains b.accounts n then
    (⟨b.name, dictDel b.accounts n⟩, true)
  else
    (b, false)

/-- Source `Bank.list_all_accounts`: the current accounts, each exactly once, in
dict order; the source only prints them and mutates nothing. -/
def Bank.list_all_accounts (b : Bank) : List Account :=
  b.accounts.map (·.2)

/-- Calling `deposit` on the account stored under key `n` (obtained via
`find_account`); mutates that stored object in place, bank-side view. -/
def Bank.depositAt (b : Bank) (n : Nat) (a : Rat) : Bank :=
  ⟨b.name, dictUpdate b.accounts n (fun acc => (acc.deposit a).1)⟩

/-- Calling `withdraw` on the account stored under key `n`, bank-side view. -/
def Bank.withdrawAt (b : Bank) (n : Nat) (a : Rat) : Bank :=
  ⟨b.name, dictUpdate b.accounts n (fun acc => (acc.withdraw a).1)⟩

/-- One core operation on the bank state.  `find_account`, `get_balance`
and `list_all_accounts` mutate nothing and appear as the `observe` step. -/
inductive Step : Bank → Bank → Prop
  | create (b : Bank) (nm ty : String) (d : Rat) (s : Nat → Nat)
      (h : GenOk b.accounts s) :
      Step b (b.create_account nm ty d s h).1
  | depositAt (b : Bank) (n : Nat) (a : Rat) : Step b (b.depositAt n a)
  | withdrawAt (b : Bank) (n : Nat) (a : Rat) : Step b (b.withdrawAt n a)
  | close (b : Bank) (n : Nat) : Step b (b.close_account n).1
  | observe (b : Bank) : Step b b

/-- Bank states reachable from a freshly constructed bank by any sequence
of core operations. -/
inductive Reachable : Bank → Prop
  | init (nm : String) : Reachable (Bank.init nm)
  | step {b b' : Bank} : Reachable b → Step b b' → Reachable b'

/-- Every account held by the bank has a non-negative balance. -/
def BalancesNonneg (b : Bank) : Prop :=
  ∀ p ∈ b.accounts, 0 ≤ p.2.balance

/-- Every key of the `accounts` dict equals the `account_number` of the
`Account` it maps to. -/
def KeysMatch (b : Bank) : Prop :=
  ∀ p ∈ b.accounts, p.2.account_number = p.1

example : (Account.mk 1 "Alice" "Savings" 100).deposit 50
    = (Account.mk 1 "Alice" "Savings" 150, true) := by
  simp [Account.deposit]; norm_num

example : (Account.mk 1 "Alice" "Savings" 150).withdraw 200
    = (Account.mk 1 "Alice" "Savings" 150, .insufficientFunds) := by
  simp [Account.withdraw]; norm_num

example : (Account.mk 1 "Alice" "Savings" 150).withdraw 150
    = (Account.mk 1 "Alice" "Savings" 0, .success) := by
  simp [Account.withdraw]

theorem dictGet_dictSet_self (d : List (Nat × Account)) (k : Nat) (v : Account) :
    dictGet (dictSet d k v) k = some v := by
  induction d with
  | nil => simp [dictSet, dictGet]
  | cons p rest ih =>
    by_cases hp : p.1 = k
    · simp [dictSet, dictGet, hp]
    · simp [dictSet, dictGet, hp, ih]

theorem dictContains_false_iff (d : List (Nat × Account)) (k : Nat) :
    dictContains d k = false ↔ dictGet d k = none := by
  unfold dictContains
  cases dictGet d k <;> simp

theorem dictGet_dictSet_ne (d : List (Nat × Account)) (k k' : Nat) (v : Account)
    (hne : k' ≠ k) : dictGet (dictSet d k v) k' = dictGet d k' := by
  have hkk : ¬k = k' := fun h => hne h.symm
  induction d with
  | nil => simp [dictSet, dictGet, hkk]
  | cons p rest ih =>
    by_cases hp : p.1 = k
    · simp [dictSet, dictGet, hp, hkk]
    · by_cases hp' : p.1 = k'
      · simp [dictSet, dictGet, hp, hp', hne]
      · simp [dictSet, dictGet, hp, hp', ih]

theorem dictSet_length_of_not_contains (d : List (Nat × Account)) (k : Nat)
    (v : Account) (h : dictContains d k = false) :
    (dictSet d k v).length = d.length + 1 := by
  induction d with
  | nil => simp [dictSet]
  | cons p rest ih =>
    rw [dictContains_false_iff] at h
    unfold dictGet at h
    by_cases hp : p.1 = k
    · simp [hp] at h
    · simp [hp] at h
      have hlen := ih (by rw [dictContains_false_iff]; exact h)
      simp [dictSet, hp, hlen]

theorem dictGet_dictDel_self (d : List (Nat × Account)) (k : Nat) :
    dictGet (dictDel d k) k = none := by
  induction d with
  | nil => simp [dictDel, dictGet]
  | cons p rest ih =>
    by_cases hp : p.1 = k
    · simp [dictDel, hp, ih]
    · simp [dictDel, dictGet, hp, ih]

theorem dictGet_dictDel_ne (d : List (Nat × Account)) (k k' : Nat)
    (hne : k' ≠ k) : dictGet (dictDel d k) k' = dictGet d k' := by
  have hkk : ¬k = k' := fun h => hne h.symm
  induction d with
  | nil => simp [dictDel]
  | cons p rest ih =>
    by_cases hp : p.1 = k
    · simp [dictDel, dictGet, hp, hkk, ih]
    · by_cases hp' : p.1 = k'
      · simp [dictDel, dictGet, hp, hp', hne]
      · simp [dictDel, dictGet, hp, hp', ih]

theorem dictGet_dictUpdate_self (d : List (Nat × Account)) (k : Nat)
    (f : Account → Account) :
    dictGet (dictUpdate d k f) k = Option.map f (dictGet d k) := by
  induction d with
  | nil => simp [dictUpdate, dictGet]
  | cons p rest ih =>
    by_cases hp : p.1 = k
    · simp [dictUpdate, dictGet, hp]
    · simp [dictUpdate, dictGet, hp, ih]

theorem dictGet_dictUpdate_ne (d : List (Nat × Account)) (k k' : Nat)
    (f : Account → Account) (hne : k' ≠ k) :
    dictGet (dictUpdate d k f) k' = dictGet d k' := by
  have hkk : ¬k = k' := fun h => hne h.symm
  induction d with
  | nil => simp [dictUpdate]
  | cons p rest ih =>
    by_cases hp : p.1 = k
    · simp [dictUpdate, dictGet, hp, hkk, ih]
    · by_cases hp' : p.1 = k'
      · simp [dictUpdate, dictGet, hp, hp', hne]
      · simp [dictUpdate, dictGet, hp, hp', ih]

theorem mem_dictSet {d : List (Nat × Account)} {k : Nat} {v : Account}
    {p : Nat × Account} (hp : p ∈ dictSet d k v) : p = (k, v) ∨ p ∈ d := by
  induction d with
  | nil => simpa [dictSet] using hp
  | cons q rest ih =>
    by_cases hq : q.1 = k
    · simp [dictSet, hq] at hp
      rcases hp with hp | hp
      · exact Or.inl hp
      · exact Or.inr (List.mem_cons_of_mem _ hp)
    · simp [dictSet, hq] at hp
      rcases hp with hp | hp
      · exact Or.inr (by simp [hp])
      · rcases ih hp with h | h
        · exact Or.inl h
        · exact Or.inr (List.mem_cons_of_mem _ h)

theorem mem_dictDel {d : List (Nat × Account)} {k : Nat}
    {p : Nat × Account} (hp : p ∈ dictDel d k) : p ∈ d := by
  induction d with
  | nil => simp [dictDel] at hp
  | cons q rest ih =>
    by_cases hq : q.1 = k
    · simp [dictDel, hq] at hp
      exact List.mem_cons_of_mem _ (ih hp)
    · simp [dictDel, hq] at hp
      rcases hp with hp | hp
      · simp [hp]
      · exact List.mem_cons_of_mem _ (ih hp)

theorem mem_dictUpdate {d : List (Nat × Account)} {k : Nat}
    {f : Account → Account} {p : Nat × Account} (hp : p ∈ dictUpdate d k f) :
    ∃ q, q ∈ d ∧ (p = q ∨ p = (q.1, f q.2)) := by
  induction d with
  | nil => simp [dictUpdate] at hp
  | cons q rest ih =>
    by_cases hq : q.1 = k
    · simp [dictUpdate, hq] at hp
      rcases hp with hp | hp
      · exact ⟨q, by simp, Or.inr (by simp [hp, hq])⟩
      · obtain ⟨r, hr, hpr⟩ := ih hp
        exact ⟨r, List.mem_cons_of_mem _ hr, hpr⟩
    · simp [dictUpdate, hq] at hp
      rcases hp with hp | hp
      · exact ⟨q, by simp, Or.inl hp⟩
      · obtain ⟨r, hr, hpr⟩ := ih hp
        exact ⟨r, List.mem_cons_of_mem _ hr, hpr⟩

theorem deposit_fields (acc : Account) (a : Rat) :
    (acc.deposit a).1.account_number = acc.account_number
    ∧ (acc.deposit a).1.name = acc.name
    ∧ (acc.deposit a).1.account_type = acc.account_type := by
  unfold Account.deposit
  split <;> simp

theorem withdraw_fields (acc : Account) (a : Rat) :
    (acc.withdraw a).1.account_number = acc.account_number
    ∧ (acc.withdraw a).1.name = acc.name
    ∧ (acc.withdraw a).1.account_type = acc.account_type := by
  unfold Account.withdraw
  split
  · simp
  · split <;> simp

theorem deposit_balance_nonneg (acc : Account) (a : Rat)
    (h : 0 ≤ acc.balance) : 0 ≤ (acc.deposit a).1.balance := by
  unfold Account.deposit
  split
  · rename_i ha
    simp only
    linarith
  · simpa using h

theorem withdraw_balance_nonneg (acc : Account) (a : Rat)
    (h : 0 ≤ acc.balance) : 0 ≤ (acc.withdraw a).1.balance := by
  unfold Account.withdraw
  split
  · rename_i ha
    simp only
    linarith [ha.2]
  · split <;> simpa using h

theorem step_preserves_balances_nonneg {b b' : Bank} (hs : Step b b')
    (h : BalancesNonneg b) : BalancesNonneg b' := by
  cases hs with
  | create nm ty d s hg =>
    unfold Bank.create_account
    by_cases hd : d < 0
    · simpa [hd] using h
    · simp only [hd, if_false]
      intro p hp
      rcases mem_dictSet hp with hp' | hp'
      · subst hp'
        simpa using not_lt.mp hd
      · exact h p hp'
  | depositAt n a =>
    intro p hp
    obtain ⟨q, hq, hpq⟩ := mem_dictUpdate hp
    rcases hpq with hpq | hpq
    · rw [hpq]
      exact h q hq
    · rw [hpq]
      exact deposit_balance_nonneg q.2 a (h q hq)
  | withdrawAt n a =>
    intro p hp
    obtain ⟨q, hq, hpq⟩ := mem_dictUpdate hp
    rcases hpq with hpq | hpq
    · rw [hpq]
      exact h q hq
    · rw [hpq]
      exact withdraw_balance_nonneg q.2 a (h q hq)
  | close n =>
    unfold Bank.close_account
    split
    · intro p hp
      exact h p (mem_dictDel hp)
    · exact h
  | observe => exact h

theorem step_preserves_keys_match {b b' : Bank} (hs : Step b b')
    (h : KeysMatch b) : KeysMatch b' := by
  cases hs with
  | create nm ty d s hg =>
    unfold Bank.create_account
    by_cases hd : d < 0
    · simpa [hd] using h
    · simp only [hd, if_false]
      intro p hp
      rcases mem_dictSet hp with hp' | hp'
      · subst hp'
        rfl
      · exact h p hp'
  | depositAt n a =>
    intro p hp
    obtain ⟨q, hq, hpq⟩ := mem_dictUpdate hp
    rcases hpq with hpq | hpq
    · rw [hpq]
      exact h q hq
    · rw [hpq]
      simpa [(deposit_fields q.2 a).1] using h q hq
  | withdrawAt n a =>
    intro p hp
    obtain ⟨q, hq, hpq⟩ := mem_dictUpdate hp
    rcases hpq with hpq | hpq
    · rw [hpq]
      exact h q hq
    · rw [hpq]
      simpa [(withdraw_fields q.2 a).1] using h q hq
  | close n =>
    unfold Bank.close_account
    split
    · intro p hp
      exact h p (mem_dictDel hp)
    · exact h
  | observe => exact h

/-- C1: every bank state reachable from a fresh bank by any sequence of core
operations (create, deposit, withdraw, close, and the pure observers) has
`balance >= 0` for every account it holds; rejected operations never mutate,
so the invariant holds after every operation. -/
theorem reachable_balances_nonneg (b : Bank) (h : Reachable b) :
    BalancesNonneg b := by
  induction h with
  | init nm =>
    intro p hp
    simp [Bank.init] at hp
  | step hr hst ih => exact step_preserves_balances_nonneg hst ih

theorem reachable_balances_nonneg_witness :
    BalancesNonneg ((Bank.init "Bankify").create_account "Alice" "Savings" 100
      (fun _ => 1234567890) ⟨0, rfl⟩).1 :=
  reachable_balances_nonneg _
    (Reachable.step (Reachable.init "Bankify")
      (Step.create (Bank.init "Bankify") "Alice" "Savings" 100
        (fun _ => 1234567890) ⟨0, rfl⟩))

/-- C2: for an account with non-negative balance, `withdraw(a)` follows the
three-way policy: `0 < a <= balance` subtracts exactly `a` and succeeds;
`a > balance` reports the insufficient-funds branch with no mutation;
`a <= 0` reports the invalid-amount branch with no mutation. -/
theorem withdraw_three_way (acc : Account) (a : Rat) (hb : 0 ≤ acc.balance) :
    (0 < a → a ≤ acc.balance →
      (acc.withdraw a).1.balance = acc.balance - a
      ∧ (acc.withdraw a).2 = WithdrawOutcome.success)
    ∧ (acc.balance < a →
      (acc.withdraw a).2 = WithdrawOutcome.insufficientFunds
      ∧ (acc.withdraw a).1 = acc)
    ∧ (a ≤ 0 →
      (acc.withdraw a).2 = WithdrawOutcome.invalidAmount
      ∧ (acc.withdraw a).1 = acc) := by
  refine ⟨fun h1 h2 => ?_, fun h3 => ?_, fun h4 => ?_⟩
  · simp [Account.withdraw, h1, h2]
  · have hna : ¬(0 < a ∧ a ≤ acc.balance) := by
      rintro ⟨-, hle⟩
      exact absurd h3 (not_lt.mpr hle)
    simp [Account.withdraw, hna, h3]
  · have hna : ¬(0 < a ∧ a ≤ acc.balance) := by
      rintro ⟨hpos, -⟩
      linarith
    have hnb : ¬acc.balance < a := by linarith
    simp [Account.withdraw, hna, hnb]

theorem withdraw_three_way_witness :
    ((Account.mk 1 "Alice" "Savings" 100).withdraw 60).2
      = WithdrawOutcome.success :=
  ((withdraw_three_way (Account.mk 1 "Alice" "Savings" 100) 60
    (by decide)).1 (by decide) (by decide)).2

/-- C3: `deposit(a)` with `a > 0` adds exactly `a` to the balance and
returns `True`, for every positive `a` (no upper bound); with `a <= 0` it
returns `False` and leaves the whole account unchanged. -/
theorem deposit_spec (acc : Account) (a : Rat) :
    (0 < a →
      (acc.deposit a).1.balance = acc.balance + a ∧ (acc.deposit a).2 = true)
    ∧ (a ≤ 0 → (acc.deposit a).1 = acc ∧ (acc.deposit a).2 = false) := by
  constructor
  · intro h
    simp [Account.deposit, h]
  · intro h
    have hn : ¬0 < a := not_lt.mpr h
    simp [Account.deposit, hn]

theorem deposit_spec_witness :
    ((Account.mk 7 "Bob" "Checking" 20).deposit 30).2 = true :=
  ((deposit_spec (Account.mk 7 "Bob" "Checking" 20) 30).1 (by decide)).2

/-- C4: `create_account` with a non-negative initial deposit adds exactly one
account: the result is `some acc`, `acc`'s number was not a key before, the
account count grows by one, every other key is untouched, and a subsequent
`find_account` on `acc`'s number returns an account with exactly the given
holder name, account type, and balance equal to the initial deposit. -/
theorem create_account_spec (b : Bank) (nm ty : String) (d : Rat)
    (s : Nat → Nat) (h : GenOk b.accounts s) (hd : 0 ≤ d) :
    ∃ acc : Account,
      (b.create_account nm ty d s h).2 = some acc
      ∧ dictContains b.accounts acc.account_number = false
      ∧ (b.create_account nm ty d s h).1.accounts.length = b.accounts.length + 1
      ∧ (b.create_account nm ty d s h).1.find_account acc.account_number = some acc
      ∧ acc.name = nm ∧ acc.account_type = ty ∧ acc.balance = d
      ∧ ∀ k, k ≠ acc.account_number →
          (b.create_account nm ty d s h).1.find_account k = b.find_account k := by
  have hnd : ¬d < 0 := not_lt.mpr hd
  have hfree : dictContains b.accounts (generate_account_number b.accounts s h) = false :=
    Nat.find_spec h
  refine ⟨⟨generate_account_number b.accounts s h, nm, ty, d⟩,
    ?_, hfree, ?_, ?_, rfl, rfl, rfl, ?_⟩
  · simp [Bank.create_account, hnd]
  · simp only [Bank.create_account, hnd, if_false]
    exact dictSet_length_of_not_contains _ _ _ hfree
  · simp only [Bank.create_account, Bank.find_account, hnd, if_false]
    exact dictGet_dictSet_self _ _ _
  · intro k hk
    simp only [Bank.create_account, Bank.find_account, hnd, if_false]
    exact dictGet_dictSet_ne _ _ _ _ hk

theorem create_account_spec_witness :
    ∃ acc : Account,
      ((Bank.init "B").create_account "Carol" "Checking" 75
        (fun _ => 4242424242) ⟨0, rfl⟩).2 = some acc
      ∧ dictContains (Bank.init "B").accounts acc.account_number = false
      ∧ ((Bank.init "B").create_account "Carol" "Checking" 75
          (fun _ => 4242424242) ⟨0, rfl⟩).1.accounts.length
        = (Bank.init "B").accounts.length + 1
      ∧ ((Bank.init "B").create_account "Carol" "Checking" 75
          (fun _ => 4242424242) ⟨0, rfl⟩).1.find_account acc.account_number
        = some acc
      ∧ acc.name = "Carol" ∧ acc.account_type = "Checking" ∧ acc.balance = 75
      ∧ ∀ k, k ≠ acc.account_number →
          ((Bank.init "B").create_account "Carol" "Checking" 75
            (fun _ => 4242424242) ⟨0, rfl⟩).1.find_account k
          = (Bank.init "B").find_account k :=
  create_account_spec (Bank.init "B") "Carol" "Checking" 75
    (fun _ => 4242424242) ⟨0, rfl⟩ (by decide)

/-- C5: `create_account` with a negative initial deposit fails: it returns
`None` and the bank — in particular its `accounts` mapping and hence its
account count — is exactly unchanged. -/
theorem create_account_negative (b : Bank) (nm ty : String) (d : Rat)
    (s : Nat → Nat) (h : GenOk b.accounts s) (hd : d < 0) :
    b.create_account nm ty d s h = (b, none) := by
  simp [Bank.create_account, hd]

theorem create_account_negative_witness :
    (Bank.init "B").create_account "Dave" "Savings" (-5)
      (fun _ => 1111111111) ⟨0, rfl⟩ = (Bank.init "B", none) :=
  create_account_negative (Bank.init "B") "Dave" "Savings" (-5)
    (fun _ => 1111111111) ⟨0, rfl⟩ (by decide)

/-- C6: `close_account(n)` with `n` present returns `True`, a subsequent
`find_account n` returns `none`, and every other key is untouched; with `n`
absent it returns `False` and the bank is exactly unchanged. -/
theorem close_account_spec (b : Bank) (n : Nat) :
    (dictContains b.accounts n = true →
      (b.close_account n).2 = true
      ∧ (b.close_account n).1.find_account n = none
      ∧ ∀ k, k ≠ n → (b.close_account n).1.find_account k = b.find_account k)
    ∧ (dictContains b.accounts n = false →
      (b.close_account n).2 = false ∧ (b.close_account n).1 = b) := by
  constructor
  · intro hc
    refine ⟨?_, ?_, ?_⟩
    · simp [Bank.close_account, hc]
    · simp only [Bank.close_account, hc, if_true, Bank.find_account]
      exact dictGet_dictDel_self _ _
    · intro k hk
      simp only [Bank.close_account, hc, if_true, Bank.find_account]
      exact dictGet_dictDel_ne _ _ _ hk
  · intro hc
    simp [Bank.close_account, hc]

theorem close_account_spec_witness :
    ((Bank.mk "B" [(5, Account.mk 5 "Eve" "Savings" 10)]).close_account 5).2
      = true
    ∧ ((Bank.mk "B" [(5, Account.mk 5 "Eve" "Savings" 10)]).close_account 5).1.find_account 5
      = none
    ∧ ((Bank.mk "B" [(5, Account.mk 5 "Eve" "Savings" 10)]).close_account 7).2
      = false :=
  ⟨((close_account_spec (Bank.mk "B" [(5, Account.mk 5 "Eve" "Savings" 10)]) 5).1 rfl).1,
   ((close_account_spec (Bank.mk "B" [(5, Account.mk 5 "Eve" "Savings" 10)]) 5).1 rfl).2.1,
   ((close_account_spec (Bank.mk "B" [(5, Account.mk 5 "Eve" "Savings" 10)]) 7).2 rfl).1⟩

/-- C7: with the random sampler modelled as an oracle stream of 10-digit
values that eventually yields a value not currently a key,
`generate_account_number` is a total function (the loop terminates) whose
result lies in `[1000000000, 9999999999]` and is not a current key. -/
theorem generate_account_number_spec (d : List (Nat × Account))
    (s : Nat → Nat) (h : GenOk d s)
    (hs : ∀ i, 1000000000 ≤ s i ∧ s i ≤ 9999999999) :
    1000000000 ≤ generate_account_number d s h
    ∧ generate_account_number d s h ≤ 9999999999
    ∧ dictContains d (generate_account_number d s h) = false :=
  ⟨(hs (Nat.find h)).1, (hs (Nat.find h)).2, Nat.find_spec h⟩

theorem generate_account_number_spec_witness :
    1000000000 ≤ generate_account_number [] (fun _ => 9876543210) ⟨0, rfl⟩
    ∧ generate_account_number [] (fun _ => 9876543210) ⟨0, rfl⟩ ≤ 9999999999
    ∧ dictContains [] (generate_account_number [] (fun _ => 9876543210) ⟨0, rfl⟩)
      = false :=
  generate_account_number_spec [] (fun _ => 9876543210) ⟨0, rfl⟩
    (fun _ => by
      show 1000000000 ≤ 9876543210 ∧ 9876543210 ≤ 9999999999
      exact ⟨by decide, by decide⟩)

/-- C8: every bank state reachable by any sequence of core operations
satisfies `KeysMatch`: each key of the `accounts` dict equals the
`account_number` of the account it maps to; every core operation (create,
deposit, withdraw, close, find) preserves this predicate. -/
theorem reachable_keys_match (b : Bank) (h : Reachable b) : KeysMatch b := by
  induction h with
  | init nm =>
    intro p hp
    simp [Bank.init] at hp
  | step hr hst ih => exact step_preserves_keys_match hst ih

theorem reachable_keys_match_witness :
    KeysMatch ((Bank.init "Ledger").create_account "Frank" "Checking" 42
      (fun _ => 2000000000) ⟨0, rfl⟩).1 :=
  reachable_keys_match _
    (Reachable.step (Reachable.init "Ledger")
      (Step.create (Bank.init "Ledger") "Frank" "Checking" 42
        (fun _ => 2000000000) ⟨0, rfl⟩))

/-- C9: for an account with non-negative balance, the boolean value
`withdraw` returns is the same (`False`) for the invalid-amount case
(`a <= 0`) and the insufficient-funds case (`a > balance`), even though the
branches taken are distinct, so a caller cannot tell the two failures apart
from the returned value alone. -/
theorem withdraw_failures_same_bool (acc : Account) (a a' : Rat)
    (hb : 0 ≤ acc.balance) (ha : a ≤ 0) (ha' : acc.balance < a') :
    (acc.withdraw a).2 = WithdrawOutcome.invalidAmount
    ∧ (acc.withdraw a').2 = WithdrawOutcome.insufficientFunds
    ∧ ((acc.withdraw a).2).toBool = ((acc.withdraw a').2).toBool
    ∧ ((acc.withdraw a).2).toBool = false := by
  have hna : ¬(0 < a ∧ a ≤ acc.balance) := by
    rintro ⟨hpos, -⟩
    linarith
  have hnb : ¬acc.balance < a := by linarith
  have hna' : ¬(0 < a' ∧ a' ≤ acc.balance) := by
    rintro ⟨-, hle⟩
    exact absurd ha' (not_lt.mpr hle)
  refine ⟨?_, ?_, ?_, ?_⟩ <;>
    simp [Account.withdraw, hna, hnb, hna', ha', WithdrawOutcome.toBool]

theorem withdraw_failures_same_bool_witness :
    ((Account.mk 3 "Grace" "Savings" 50).withdraw (-2)).2
      = WithdrawOutcome.invalidAmount
    ∧ ((Account.mk 3 "Grace" "Savings" 50).withdraw 80).2
      = WithdrawOutcome.insufficientFunds
    ∧ (((Account.mk 3 "Grace" "Savings" 50).withdraw (-2)).2).toBool
      = (((Account.mk 3 "Grace" "Savings" 50).withdraw 80).2).toBool
    ∧ (((Account.mk 3 "Grace" "Savings" 50).withdraw (-2)).2).toBool = false :=
  withdraw_failures_same_bool (Account.mk 3 "Grace" "Savings" 50) (-2) 80
    (by decide) (by decide) (by decide)

/-- C10: `deposit` and `withdraw` — succeeding or failing — never change the
account's `account_number`, `name` (holder), or `account_type`; and applied
through the bank to the account stored under key `n`, they leave the account
stored under every other key exactly as `find_account` saw it before. -/
theorem deposit_withdraw_frame (acc : Account) (a : Rat) (b : Bank)
    (n k : Nat) (hk : k ≠ n) :
    (acc.deposit a).1.account_number = acc.account_number
    ∧ (acc.deposit a).1.name = acc.name
    ∧ (acc.deposit a).1.account_type = acc.account_type
    ∧ (acc.withdraw a).1.account_number = acc.account_number
    ∧ (acc.withdraw a).1.name = acc.name
    ∧ (acc.withdraw a).1.account_type = acc.account_type
    ∧ (b.depositAt n a).find_account k = b.find_account k
    ∧ (b.withdrawAt n a).find_account k = b.find_account k := by
  refine ⟨(deposit_fields acc a).1, (deposit_fields acc a).2.1,
    (deposit_fields acc a).2.2, (withdraw_fields acc a).1,
    (withdraw_fields acc a).2.1, (withdraw_fields acc a).2.2, ?_, ?_⟩
  · simp only [Bank.depositAt, Bank.find_account]
    exact dictGet_dictUpdate_ne _ _ _ _ hk
  · simp only [Bank.withdrawAt, Bank.find_account]
    exact dictGet_dictUpdate_ne _ _ _ _ hk

theorem deposit_withdraw_frame_witness :
    ((Account.mk 9 "Hank" "Savings" 5).deposit 4).1.account_number = 9
    ∧ ((Bank.mk "B" [(2, Account.mk 2 "Ivy" "Checking" 8)]).depositAt 3 1).find_account 2
      = (Bank.mk "B" [(2, Account.mk 2 "Ivy" "Checking" 8)]).find_account 2 :=
  ⟨(deposit_withdraw_frame (Account.mk 9 "Hank" "Savings" 5) 4
      (Bank.mk "B" [(2, Account.mk 2 "Ivy" "Checking" 8)]) 3 2 (by decide)).1,
   (deposit_withdraw_frame (Account.mk 9 "Hank" "Savings" 5) 4
      (Bank.mk "B" [(2, Account.mk 2 "Ivy" "Checking" 8)]) 3 2 (by decide)).2.2.2.2.2.2.1⟩
